import Mathlib

/-!
Verification of the video-info extraction pipeline of `video_info.go`
(package ytdl).  The Go functions `getVideoInfoFromHTML`,
`addFormatsByQueryStrings`, `addFormatsByInfos` and `addMetadata` are
embedded as pure Lean functions; the Go standard-library routines they
call (`strconv.Atoi`, `url.ParseQuery`, `url.Values.Encode`,
`encoding/json` unmarshalling, `time.Duration` arithmetic) are modelled
explicitly below.  Machine integers are modelled as `Int` with explicit
wrap-around at 64 bits where Go overflow semantics matter.
-/

/-- Signed 64-bit wrap-around: the value of an `int64`/`time.Duration`
computation in Go, which wraps modulo 2^64 into `[-2^63, 2^63)`. -/
def wrap64 (n : Int) : Int := (n + 2 ^ 63) % 2 ^ 64 - 2 ^ 63

/-- Decimal value of a digit run; `none` when empty or a non-digit occurs.
Used by the `strconv.Atoi` model. -/
def digitsValAux : List Char → Nat → Option Nat
  | [], acc => some acc
  | c :: rest, acc =>
      if c.isDigit then digitsValAux rest (acc * 10 + (c.toNat - 48)) else none

/-- Decimal value of a non-empty all-digit character list. -/
def digitsVal (cs : List Char) : Option Nat :=
  if cs.isEmpty then none else digitsValAux cs 0

/-- Model of Go `strconv.Atoi` (= `ParseInt` base 10, 64-bit): an optional
sign followed by digits; `none` on empty input, a stray character, or a
value outside the `int64` range (Go reports `ErrRange` there, and the
caller in `video_info.go` only uses the value when `err == nil`). -/
def goAtoi (s : String) : Option Int :=
  match s.data with
  | '-' :: rest =>
      (digitsVal rest).bind fun n =>
        if (n : Int) ≤ 2 ^ 63 then some (-(n : Int)) else none
  | '+' :: rest =>
      (digitsVal rest).bind fun n =>
        if (n : Int) < 2 ^ 63 then some (n : Int) else none
  | cs =>
      (digitsVal cs).bind fun n =>
        if (n : Int) < 2 ^ 63 then some (n : Int) else none

/-- Value of one hexadecimal digit, upper or lower case. -/
def hexDigitVal (c : Char) : Option Nat :=
  if '0' ≤ c ∧ c ≤ '9' then some (c.toNat - 48)
  else if 'a' ≤ c ∧ c ≤ 'f' then some (c.toNat - 87)
  else if 'A' ≤ c ∧ c ≤ 'F' then some (c.toNat - 55)
  else none

/-- Model of Go `url.QueryUnescape` on a character list: `%XX` becomes the
byte value `XX`, `+` becomes a space, a `%` not followed by two hex digits
is an error.  (Go works on bytes; multi-byte UTF-8 sequences assembled
from escapes are out of scope for the claims and kept as one char per
byte.) -/
def unescapeChars : List Char → Except String (List Char)
  | [] => .ok []
  | '%' :: c1 :: c2 :: rest =>
      match hexDigitVal c1, hexDigitVal c2 with
      | some h, some l => (unescapeChars rest).map (fun t => Char.ofNat (h * 16 + l) :: t)
      | _, _ => .error "invalid URL escape"
  | '%' :: _ => .error "invalid URL escape"
  | '+' :: rest => (unescapeChars rest).map (fun t => ' ' :: t)
  | c :: rest => (unescapeChars rest).map (fun t => c :: t)

/-- `strings.Cut` at the first occurrence of `sep`: the part before it and,
when found, the part after it. -/
def cutList (sep : Char) : List Char → List Char × Option (List Char)
  | [] => ([], none)
  | c :: rest =>
      if c = sep then ([], some rest)
      else
        match cutList sep rest with
        | (before, after) => (c :: before, after)

/-- One key=value chunk of `url.ParseQuery`: the decoded pair (skipped when
empty or erroneous) and the error the chunk contributes. -/
def parseQueryChunk (kv : List Char) : Option (String × String) × Option String :=
  if kv.contains ';' then (none, some "invalid semicolon separator in query")
  else if kv.isEmpty then (none, none)
  else
    match cutList '=' kv with
    | (k, v) =>
      match unescapeChars k with
      | .error e => (none, some e)
      | .ok k2 =>
        match unescapeChars (v.getD []) with
        | .error e => (none, some e)
        | .ok v2 => (some (String.mk k2, String.mk v2), none)

/-- The `&`-splitting loop of `url.ParseQuery`, with fuel (each step
strictly shrinks the input, so `length` fuel suffices).  Pairs keep body
order; the first error encountered is kept, and later chunks are still
decoded — exactly Go, which returns both the partial `Values` and the
error. -/
def parseQueryAux : Nat → List Char → List (String × String) × Option String
  | 0, _ => ([], none)
  | _, [] => ([], none)
  | fuel + 1, cs =>
      match cutList '&' cs with
      | (kv, rest) =>
        let tail :=
          match rest with
          | some r => parseQueryAux fuel r
          | none => ([], none)
        match parseQueryChunk kv with
        | (some p, e) => (p :: tail.1, match e with | some e0 => some e0 | none => tail.2)
        | (none, e) => (tail.1, match e with | some e0 => some e0 | none => tail.2)

/-- Model of Go `url.ParseQuery`: ordered key/value pairs plus the first
error (the caller in `video_info.go` aborts whenever it is non-nil). -/
def goParseQuery (s : String) : List (String × String) × Option String :=
  parseQueryAux (s.data.length + 1) s.data

/-- First value recorded for a key: `url.Values` keeps values in body
order and the pipeline reads `v[0]`. -/
def firstValue (pairs : List (String × String)) (k : String) : Option String :=
  (pairs.find? (fun p => p.1 == k)).map (fun p => p.2)

/-- Characters Go `url.QueryEscape` copies unchanged: ASCII alphanumerics
and `-_.~`. -/
def queryUnreserved (c : Char) : Bool :=
  c.isAlphanum || c == '-' || c == '_' || c == '.' || c == '~'

/-- Upper-case hex digit, as Go's escaper emits. -/
def hexDigitUpper (n : Nat) : Char :=
  List.getD ['0', '1', '2', '3', '4', '5', '6', '7', '8', '9', 'A', 'B', 'C', 'D', 'E', 'F'] n '0'

/-- UTF-8 bytes of a character (Go escapes each byte separately). -/
def utf8ByteVals (c : Char) : List Nat :=
  let n := c.toNat
  if n < 128 then [n]
  else if n < 2048 then [192 + n / 64, 128 + n % 64]
  else if n < 65536 then [224 + n / 4096, 128 + n / 64 % 64, 128 + n % 64]
  else [240 + n / 262144, 128 + n / 4096 % 64, 128 + n / 64 % 64, 128 + n % 64]

/-- Escape one character as Go `url.QueryEscape` does: space to `+`,
unreserved characters unchanged, anything else percent-encoded bytewise. -/
def escapeChar (c : Char) : List Char :=
  if c = ' ' then ['+']
  else if queryUnreserved c then [c]
  else (utf8ByteVals c).flatMap (fun b => ['%', hexDigitUpper (b / 16), hexDigitUpper (b % 16)])

/-- Model of Go `url.QueryEscape`. -/
def goQueryEscape (s : String) : String := String.mk (s.data.flatMap escapeChar)

/-- Model of Go `url.Values.Encode` applied to an association list whose
keys are already in sorted order (`Encode` sorts keys; the one call site
in `video_info.go` passes the keys `eurl` and `video_id`, given here
pre-sorted). -/
def goValuesEncode (vs : List (String × String)) : String :=
  String.intercalate "&" (vs.map (fun p => goQueryEscape p.1 ++ "=" ++ goQueryEscape p.2))

/-- JSON values, as `encoding/json` sees them.  Numbers keep their source
lexeme: every typed field the pipeline decodes is a string, and the one
numeric field used (`itag`, in the spec-modelled format adapter) is read
back through the `strconv.Atoi` model, which rejects non-integer lexemes
just as Go rejects unmarshalling a fraction into an `int`. -/
inductive Json where
  | null
  | bool (b : Bool)
  | num (lexeme : String)
  | str (s : String)
  | arr (elems : List Json)
  | obj (fields : List (String × Json))

/-- JSON whitespace skipping. -/
def skipWs : List Char → List Char
  | c :: rest =>
      if c = ' ' ∨ c = '\t' ∨ c = '\n' ∨ c = '\r' then skipWs rest else c :: rest
  | [] => []

/-- Body of a JSON string literal, after the opening quote: the decoded
characters and the remainder after the closing quote.  Escapes follow the
JSON grammar; unescaped control characters are rejected. -/
def parseStringBody : List Char → Except String (List Char × List Char)
  | [] => .error "unexpected end of string literal"
  | '"' :: rest => .ok ([], rest)
  | '\\' :: 'u' :: a :: b :: c :: d :: rest =>
      match hexDigitVal a, hexDigitVal b, hexDigitVal c, hexDigitVal d with
      | some ha, some hb, some hc, some hd =>
          (parseStringBody rest).map
            (fun p => (Char.ofNat (((ha * 16 + hb) * 16 + hc) * 16 + hd) :: p.1, p.2))
      | _, _, _, _ => .error "invalid unicode escape"
  | '\\' :: e :: rest =>
      let decoded : Except String Char :=
        if e = '"' then .ok '"'
        else if e = '\\' then .ok '\\'
        else if e = '/' then .ok '/'
        else if e = 'b' then .ok (Char.ofNat 8)
        else if e = 'f' then .ok (Char.ofNat 12)
        else if e = 'n' then .ok '\n'
        else if e = 'r' then .ok '\r'
        else if e = 't' then .ok '\t'
        else .error "invalid escape"
      match decoded with
      | .ok c => (parseStringBody rest).map (fun p => (c :: p.1, p.2))
      | .error m => .error m
  | c :: rest =>
      if c.toNat < 32 then .error "control character in string literal"
      else (parseStringBody rest).map (fun p => (c :: p.1, p.2))

/-- Longest digit run at the front of the input. -/
def spanDigits : List Char → List Char × List Char
  | [] => ([], [])
  | c :: rest =>
      if c.isDigit then
        match spanDigits rest with
        | (ds, r) => (c :: ds, r)
      else ([], c :: rest)

/-- A JSON number lexeme (`-? int frac? exp?`, leading zeros rejected):
the lexeme and the remainder. -/
def parseNumberLexeme (cs : List Char) : Except String (List Char × List Char) :=
  let signed : List Char × List Char :=
    match cs with
    | '-' :: rest => (['-'], rest)
    | _ => ([], cs)
  match signed.2 with
  | [] => .error "invalid number"
  | c :: rest =>
      if ¬c.isDigit then .error "invalid number"
      else
        let intPart : Except String (List Char × List Char) :=
          if c = '0' then
            match rest with
            | d :: _ => if d.isDigit then .error "leading zero in number" else .ok (['0'], rest)
            | [] => .ok (['0'], [])
          else
            match spanDigits (c :: rest) with
            | (ds, r) => .ok (ds, r)
        match intPart with
        | .error m => .error m
        | .ok (ip, r1) =>
          let frac : Except String (List Char × List Char) :=
            match r1 with
            | '.' :: r2 =>
                match spanDigits r2 with
                | ([], _) => .error "missing fraction digits"
                | (ds, r3) => .ok ('.' :: ds, r3)
            | _ => .ok ([], r1)
          match frac with
          | .error m => .error m
          | .ok (fp, r4) =>
            match r4 with
            | e :: r5 =>
                if e = 'e' ∨ e = 'E' then
                  let expSigned : List Char × List Char :=
                    match r5 with
                    | '+' :: r6 => (['+'], r6)
                    | '-' :: r6 => (['-'], r6)
                    | _ => ([], r5)
                  match spanDigits expSigned.2 with
                  | ([], _) => .error "missing exponent digits"
                  | (ds, r7) => .ok (signed.1 ++ ip ++ fp ++ e :: expSigned.1 ++ ds, r7)
                else .ok (signed.1 ++ ip ++ fp, r4)
            | [] => .ok (signed.1 ++ ip ++ fp, [])

mutual

/-- One JSON value, by recursion on fuel (any fuel of at least four times
the input length suffices; `jsonParse` supplies it). -/
def parseJsonValue : Nat → List Char → Except String (Json × List Char)
  | 0, _ => .error "value nesting exhausts fuel"
  | fuel + 1, cs =>
      match skipWs cs with
      | [] => .error "unexpected end of JSON"
      | '{' :: rest =>
          match skipWs rest with
          | '}' :: r => .ok (.obj [], r)
          | rest2 => (parseJsonMembers fuel rest2).map (fun p => (.obj p.1, p.2))
      | '[' :: rest =>
          match skipWs rest with
          | ']' :: r => .ok (.arr [], r)
          | rest2 => (parseJsonElements fuel rest2).map (fun p => (.arr p.1, p.2))
      | '"' :: rest => (parseStringBody rest).map (fun p => (.str (String.mk p.1), p.2))
      | 't' :: 'r' :: 'u' :: 'e' :: rest => .ok (.bool true, rest)
      | 'f' :: 'a' :: 'l' :: 's' :: 'e' :: rest => .ok (.bool false, rest)
      | 'n' :: 'u' :: 'l' :: 'l' :: rest => .ok (.null, rest)
      | c :: rest =>
          if c = '-' ∨ c.isDigit then
            (parseNumberLexeme (c :: rest)).map (fun p => (.num (String.mk p.1), p.2))
          else .error "invalid JSON value"

/-- Members of a JSON object, positioned at a key. -/
def parseJsonMembers : Nat → List Char → Except String (List (String × Json) × List Char)
  | 0, _ => .error "object nesting exhausts fuel"
  | fuel + 1, cs =>
      match skipWs cs with
      | '"' :: rest =>
          match parseStringBody rest with
          | .error m => .error m
          | .ok (key, r1) =>
            match skipWs r1 with
            | ':' :: r2 =>
                match parseJsonValue fuel r2 with
                | .error m => .error m
                | .ok (v, r3) =>
                  match skipWs r3 with
                  | ',' :: r4 =>
                      (parseJsonMembers fuel r4).map
                        (fun p => ((String.mk key, v) :: p.1, p.2))
                  | '}' :: r4 => .ok ([(String.mk key, v)], r4)
                  | _ => .error "expected comma or closing brace in object"
            | _ => .error "expected colon in object"
      | _ => .error "expected string key in object"

/-- Elements of a JSON array, positioned at a value. -/
def parseJsonElements : Nat → List Char → Except String (List Json × List Char)
  | 0, _ => .error "array nesting exhausts fuel"
  | fuel + 1, cs =>
      match parseJsonValue fuel cs with
      | .error m => .error m
      | .ok (v, r1) =>
        match skipWs r1 with
        | ',' :: r2 => (parseJsonElements fuel r2).map (fun p => (v :: p.1, p.2))
        | ']' :: r2 => .ok ([v], r2)
        | _ => .error "expected comma or closing bracket in array"

end

/-- Model of the text layer of `json.Unmarshal`: one JSON value with
nothing but whitespace after it. -/
def jsonParse (s : String) : Except String Json :=
  match parseJsonValue (4 * s.data.length + 8) s.data with
  | .error e => .error e
  | .ok (j, rest) =>
      if (skipWs rest).isEmpty then .ok j else .error "invalid character after top-level value"

/-- Field lookup in a decoded object: as in Go, when a key repeats the
last occurrence wins (each occurrence overwrites the struct field). -/
def objGet (fields : List (String × Json)) (k : String) : Option Json :=
  (fields.reverse.find? (fun p => p.1 == k)).map (fun p => p.2)

/-- Decode a Go `string` struct field: a missing key or JSON `null`
leaves the zero value, a string is taken, any other shape is an
unmarshalling error (fatal to the callers in `video_info.go`). -/
def getStringField (fields : List (String × Json)) (k : String) : Except String String :=
  match objGet fields k with
  | none => .ok ""
  | some .null => .ok ""
  | some (.str s) => .ok s
  | some _ => .error ("cannot unmarshal value of key " ++ k ++ " into a string field")

/-- Decode a Go slice-of-objects struct field at the granularity the
claims need: a missing key or `null` is the empty list, an array keeps
its raw elements, any other shape is an unmarshalling error. -/
def getArrayField (fields : List (String × Json)) (k : String) : Except String (List Json) :=
  match objGet fields k with
  | none => .ok []
  | some .null => .ok []
  | some (.arr es) => .ok es
  | some _ => .error ("cannot unmarshal value of key " ++ k ++ " into a slice field")

/-- Modelled from the spec: the argument bag of the embedded player
configuration (§3 PlayerConfiguration) — error code, error reason, status
string, raw player-response JSON string, raw legacy stream maps (muxed
and adaptive), raw DASH manifest URL.  The Go struct lives in a file of
the repository outside `src/`; the JSON keys follow the fallback
endpoint's keys, which `video_info.go` maps onto the same fields. -/
structure playerArgs where
  Errorcode : String := ""
  Reason : String := ""
  Status : String := ""
  PlayerResponse : String := ""
  URLEncodedFmtStreamMap : String := ""
  AdaptiveFmts : String := ""
  Dashmpd : String := ""
deriving DecidableEq

/-- Modelled from the spec: the player-script asset location carried by
the embedded configuration (§3, "the player-script asset location"). -/
structure playerAssets where
  JS : String := ""
deriving DecidableEq

/-- Modelled from the spec: the transient PlayerConfiguration carrier
(§3), as `video_info.go` reads it (`jsonConfig.Args`,
`jsonConfig.Assets.JS`). -/
structure playerConfig where
  Args : playerArgs := {}
  Assets : playerAssets := {}
deriving DecidableEq

/-- Modelled from the spec: `json.Unmarshal` of the embedded
configuration into the playerConfig shape — an object with optional
sub-objects `args` and `assets`, string fields as named; unknown keys
are ignored, a present field of the wrong shape is an error, a `null`
document or field leaves the zero value (Go semantics). -/
def decodePlayerArgs (fields : List (String × Json)) : Except String playerArgs := do
  let ec ← getStringField fields "errorcode"
  let re ← getStringField fields "reason"
  let st ← getStringField fields "status"
  let pr ← getStringField fields "player_response"
  let um ← getStringField fields "url_encoded_fmt_stream_map"
  let af ← getStringField fields "adaptive_fmts"
  let dm ← getStringField fields "dashmpd"
  pure { Errorcode := ec, Reason := re, Status := st, PlayerResponse := pr,
         URLEncodedFmtStreamMap := um, AdaptiveFmts := af, Dashmpd := dm }

/-- Modelled from the spec: decoding the `assets` sub-object. -/
def decodePlayerAssets (fields : List (String × Json)) : Except String playerAssets := do
  let js ← getStringField fields "js"
  pure { JS := js }

/-- Modelled from the spec: whole playerConfig decoding (see
`decodePlayerArgs`). -/
def decodePlayerConfig (j : Json) : Except String playerConfig :=
  match j with
  | .null => .ok {}
  | .obj fields => do
      let args ←
        match objGet fields "args" with
        | none => pure ({} : playerArgs)
        | some .null => pure ({} : playerArgs)
        | some (.obj af) => decodePlayerArgs af
        | some _ => .error "cannot unmarshal args"
      let assets ←
        match objGet fields "assets" with
        | none => pure ({} : playerAssets)
        | some .null => pure ({} : playerAssets)
        | some (.obj af) => decodePlayerAssets af
        | some _ => .error "cannot unmarshal assets"
      pure { Args := args, Assets := assets }
  | _ => .error "cannot unmarshal player config"

/-- `json.Unmarshal(matches[1], &jsonConfig)` as one function: text layer
plus struct layer. -/
def unmarshalPlayerConfig (s : String) : Except String playerConfig :=
  (jsonParse s).bind decodePlayerConfig

/-- Modelled from the spec: playability status of the modern player
response (§3 PlayerResponse, "playability status + reason"). -/
structure PlayabilityStatus where
  Status : String := ""
  Reason : String := ""
deriving DecidableEq

/-- Modelled from the spec: streaming data of the player response —
manifest URLs, muxed formats, adaptive formats (§3).  Format objects are
kept raw; the adapter decodes them one by one. -/
structure StreamingData where
  DashManifestUrl : String := ""
  HlsManifestUrl : String := ""
  Formats : List Json := []
  AdaptiveFormats : List Json := []

/-- Modelled from the spec: video details of the player response —
title, uploader, length in seconds (§3). -/
structure VideoDetails where
  Title : String := ""
  Author : String := ""
  LengthSeconds : String := ""
deriving DecidableEq

/-- Modelled from the spec: the microformat renderer holding the publish
date string (§3). -/
structure MicroformatRenderer where
  PublishDate : String := ""
deriving DecidableEq

/-- Modelled from the spec: microformat wrapper of the renderer. -/
structure Microformat where
  Renderer : MicroformatRenderer := {}
deriving DecidableEq

/-- Modelled from the spec: the decoded modern player response (§3
PlayerResponse), with exactly the fields `video_info.go` reads. -/
structure playerResponse where
  PlayabilityStatus : PlayabilityStatus := {}
  StreamingData : StreamingData := {}
  VideoDetails : VideoDetails := {}
  Microformat : Microformat := {}

/-- Modelled from the spec: `json.Unmarshal` of the player-response JSON
string into the playerResponse shape; unknown keys ignored, wrong shapes
fatal, missing or `null` sub-objects left at their zero values. -/
def decodePlayerResponse (j : Json) : Except String playerResponse :=
  match j with
  | .null => .ok {}
  | .obj fields => do
      let ps ←
        match objGet fields "playabilityStatus" with
        | none => pure ({} : PlayabilityStatus)
        | some .null => pure ({} : PlayabilityStatus)
        | some (.obj pf) => do
            let st ← getStringField pf "status"
            let re ← getStringField pf "reason"
            pure ({ Status := st, Reason := re } : PlayabilityStatus)
        | some _ => .error "cannot unmarshal playabilityStatus"
      let sd ←
        match objGet fields "streamingData" with
        | none => pure ({} : StreamingData)
        | some .null => pure ({} : StreamingData)
        | some (.obj sf) => do
            let du ← getStringField sf "dashManifestUrl"
            let hu ← getStringField sf "hlsManifestUrl"
            let fo ← getArrayField sf "formats"
            let af ← getArrayField sf "adaptiveFormats"
            pure ({ DashManifestUrl := du, HlsManifestUrl := hu,
                    Formats := fo, AdaptiveFormats := af } : StreamingData)
        | some _ => .error "cannot unmarshal streamingData"
      let vd ←
        match objGet fields "videoDetails" with
        | none => pure ({} : VideoDetails)
        | some .null => pure ({} : VideoDetails)
        | some (.obj vf) => do
            let ti ← getStringField vf "title"
            let au ← getStringField vf "author"
            let ls ← getStringField vf "lengthSeconds"
            pure ({ Title := ti, Author := au, LengthSeconds := ls } : VideoDetails)
        | some _ => .error "cannot unmarshal videoDetails"
      let mf ←
        match objGet fields "microformat" with
        | none => pure ({} : Microformat)
        | some .null => pure ({} : Microformat)
        | some (.obj mf0) =>
            match objGet mf0 "playerMicroformatRenderer" with
            | none => pure ({} : Microformat)
            | some .null => pure ({} : Microformat)
            | some (.obj rf) => do
                let pd ← getStringField rf "publishDate"
                pure ({ Renderer := { PublishDate := pd } } : Microformat)
            | some _ => .error "cannot unmarshal playerMicroformatRenderer"
        | some _ => .error "cannot unmarshal microformat"
      pure { PlayabilityStatus := ps, StreamingData := sd,
             VideoDetails := vd, Microformat := mf }
  | _ => .error "cannot unmarshal player response"

/-- `json.Unmarshal([]byte(inf.PlayerResponse), &response)` as one
function. -/
def unmarshalPlayerResponse (s : String) : Except String playerResponse :=
  (jsonParse s).bind decodePlayerResponse

/-- Modelled from the spec: one StreamFormat record (§3) — the
non-negative itag, the adaptive flag, and the direct URL when the source
supplied one.  The Go `Format` type lives in a file of the repository
outside `src/`. -/
structure Format where
  Itag : Nat
  Adaptive : Bool
  URL : String := ""
deriving DecidableEq

/-- Modelled from the spec: the QueryStringDecoder (§4.5 and §2) —
one URL-query-encoded stream-map segment decoded into a StreamFormat
whose adaptive flag is the caller-supplied batch flag; a segment whose
query string does not parse, or that lacks a decodable non-negative
`itag` field, is an error (the caller drops it).  On success the record
is appended to the accumulating list. -/
def addByQueryString (formats : List Format) (s : String) (adaptive : Bool) :
    Except String (List Format) :=
  match goParseQuery s with
  | (_, some e) => .error e
  | (pairs, none) =>
    match firstValue pairs "itag" with
    | none => .error "no itag found"
    | some itagStr =>
      match goAtoi itagStr with
      | none => .error "invalid itag"
      | some n =>
          if n < 0 then .error "negative itag"
          else .ok (formats ++
            [{ Itag := n.toNat, Adaptive := adaptive, URL := (firstValue pairs "url").getD "" }])

/-- Modelled from the spec: the StructuredFormatAdapter (§4.5 and §2) —
one raw JSON format object mapped to a StreamFormat with the same
drop-on-error policy; an object missing a decodable integer `itag` is an
error (the caller drops it). -/
def addByInfo (formats : List Format) (info : Json) (adaptive : Bool) :
    Except String (List Format) :=
  match info with
  | .obj fields =>
    match objGet fields "itag" with
    | some (.num lexeme) =>
        match goAtoi lexeme with
        | none => .error "invalid itag"
        | some n =>
            if n < 0 then .error "negative itag"
            else
              let url : String :=
                match objGet fields "url" with
                | some (.str u) => u
                | _ => ""
              .ok (formats ++ [{ Itag := n.toNat, Adaptive := adaptive, URL := url }])
    | _ => .error "format object has no itag"
  | _ => .error "format is not an object"

/-- The comma-splitting of `addFormatsByQueryStrings`
(`video_info.go:305`): `bufio.ReadString(',')` yields successive
comma-terminated chunks (delimiter included, stripped by the caller);
when EOF arrives before a delimiter the loop breaks, so the final
unterminated chunk — empty or not — is never handed to the decoder. -/
def splitCommaAux : List Char → List Char → List (List Char)
  | [], _ => []
  | c :: rest, acc =>
      if c = ',' then acc.reverse :: splitCommaAux rest []
      else splitCommaAux rest (c :: acc)

/-- `Client.addFormatsByQueryStrings` (`video_info.go:305-316`): decode
each comma-terminated segment, dropping segments that fail. -/
def addFormatsByQueryStrings (formats : List Format) (s : String) (adaptive : Bool) :
    List Format :=
  (splitCommaAux s.data []).foldl
    (fun fs seg =>
      match addByQueryString fs (String.mk seg) adaptive with
      | .ok fs2 => fs2
      | .error _ => fs)
    formats

/-- `Client.addFormatsByInfos` (`video_info.go:297-303`): adapt each raw
format object, dropping objects that fail. -/
def addFormatsByInfos (formats : List Format) (infos : List Json) (adaptive : Bool) :
    List Format :=
  infos.foldl
    (fun fs i =>
      match addByInfo fs i adaptive with
      | .ok fs2 => fs2
      | .error _ => fs)
    formats

/-- Model of Go `time.Parse("2006-01-02", s)`: exactly four digits, a
dash, two digits, a dash, two digits, with the month and day in range
(day checked against the month's length, leap years included). -/
def daysInMonth (y m : Nat) : Nat :=
  if m = 2 then
    if y % 4 = 0 ∧ (y % 100 ≠ 0 ∨ y % 400 = 0) then 29 else 28
  else if m = 4 ∨ m = 6 ∨ m = 9 ∨ m = 11 then 30
  else 31

/-- See `daysInMonth`; `none` models a `time.Parse` error. -/
def goParseDate (s : String) : Option (Nat × Nat × Nat) :=
  match s.data with
  | [y1, y2, y3, y4, s1, m1, m2, s2, d1, d2] =>
      if s1 = '-' ∧ s2 = '-' then
        match digitsVal [y1, y2, y3, y4], digitsVal [m1, m2], digitsVal [d1, d2] with
        | some y, some m, some d =>
            if 1 ≤ m ∧ m ≤ 12 ∧ 1 ≤ d ∧ d ≤ daysInMonth y m then some (y, m, d) else none
        | _, _, _ => none
      else none
  | _ => none

/-- The `VideoInfo` record (`video_info.go:27-43`).  `DatePublished` is
`none` for Go's zero `time.Time`; `Duration` is the signed 64-bit
nanosecond count of `time.Duration`, 0 when unset. -/
structure VideoInfo where
  ID : String := ""
  Title : String := ""
  Description : String := ""
  DatePublished : Option (Nat × Nat × Nat) := none
  Formats : List Format := []
  DASHManifestURL : String := ""
  HLSManifestURL : String := ""
  Keywords : List String := []
  Uploader : String := ""
  Song : String := ""
  Artist : String := ""
  Album : String := ""
  Writers : String := ""
  Duration : Int := 0
  htmlPlayerFile : String := ""
deriving DecidableEq

/-- One metadata row, as the jsonquery XPath query of `addMetadata`
returns it (`getMetaDataRow` lives outside `src/`). -/
structure metadataRow where
  Key : String
  Value : String
deriving DecidableEq

/-- Modelled from the spec: the outcome of the jsonquery layer of
`addMetadata` (§4.1) — the description block when present, and the
metadata rows.  The jsonquery library and `getMetaDataRow` are outside
`src/`; parse and query failures of that layer arrive as the `Except`
error around this document. -/
structure metaDoc where
  Description : Option String := none
  Rows : List metadataRow := []
deriving DecidableEq

/-- The row switch of `addMetadata` (`video_info.go:283-292`): recognized
labels set their field, anything else is ignored. -/
def applyMetadataRow (i : VideoInfo) (row : metadataRow) : VideoInfo :=
  match row.Key with
  | "Artist" => { i with Artist := row.Value }
  | "Song" => { i with Song := row.Value }
  | "Album" => { i with Album := row.Value }
  | "Writers" => { i with Writers := row.Value }
  | _ => i

/-- `VideoInfo.addMetadata` (`video_info.go:259-295`): a jsonquery parse
or query failure is an error before any field is written; on success the
description (when found) and the recognized rows are written. -/
def addMetadata (info : VideoInfo) (doc : Except String metaDoc) : Except String VideoInfo :=
  match doc with
  | .error e => .error e
  | .ok d =>
      let info :=
        match d.Description with
        | some s => { info with Description := s }
        | none => info
      .ok (d.Rows.foldl applyMetadataRow info)

/-- `youtubeVideoInfoURL` (`video_info.go:23`). -/
def youtubeVideoInfoURL : String := "https://www.youtube.com/get_video_info"

/-- `youtubeVideoEURL` (`video_info.go:22`). -/
def youtubeVideoEURL : String := "https://youtube.googleapis.com/v/"

/-- The fallback request URL built at `video_info.go:167-172`:
`get_video_info?` followed by `url.Values.Encode` of the two parameters
(`Encode` sorts keys, so `eurl` precedes `video_id`). -/
def videoInfoRequestURL (id : String) : String :=
  youtubeVideoInfoURL ++ "?" ++
    goValuesEncode [("eurl", youtubeVideoEURL ++ id), ("video_id", id)]

/-- The keys the fallback loop of `video_info.go:182-201` recognizes. -/
def recognizedQueryKeys : List String :=
  ["errorcode", "reason", "status", "player_response",
   "url_encoded_fmt_stream_map", "adaptive_fmts", "dashmpd"]

/-- The fallback loop of `video_info.go:182-201`: each recognized key of
the parsed response sets its configuration field to the key's first
value (`v[0]`); every other key is ignored, and a missing key leaves the
zero value the `jsonConfig` variable started with. -/
def configFromQuery (pairs : List (String × String)) : playerConfig :=
  { Args :=
      { Errorcode := (firstValue pairs "errorcode").getD ""
        Reason := (firstValue pairs "reason").getD ""
        Status := (firstValue pairs "status").getD ""
        PlayerResponse := (firstValue pairs "player_response").getD ""
        URLEncodedFmtStreamMap := (firstValue pairs "url_encoded_fmt_stream_map").getD ""
        AdaptiveFmts := (firstValue pairs "adaptive_fmts").getD ""
        Dashmpd := (firstValue pairs "dashmpd").getD "" }
    Assets := {} }

/-- The legacy stream-map decoding of `video_info.go:209-213`: the muxed
map unconditionally, the adaptive map only when non-empty. -/
def legacyFormats (inf : playerArgs) : List Format :=
  let formats := addFormatsByQueryStrings [] inf.URLEncodedFmtStreamMap false
  if inf.AdaptiveFmts ≠ "" then addFormatsByQueryStrings formats inf.AdaptiveFmts true
  else formats

/-- The tail of `getVideoInfoFromHTML` (`video_info.go:247-256`): fill
`htmlPlayerFile` from the configuration assets when still empty, store
the format list (possibly empty — only a log line notes that) and return
the info with a nil error. -/
def finishInfo (info : VideoInfo) (formats : List Format) (jsonConfig : playerConfig) :
    Option VideoInfo × Option String :=
  let info :=
    if info.htmlPlayerFile = "" then { info with htmlPlayerFile := jsonConfig.Assets.JS }
    else info
  (some { info with Formats := formats }, none)

/-- The `VideoInfo` updates of the player-response block
(`video_info.go:220-221` and `228-242`): manifest URLs, duration (via
`strconv.Atoi` and `time.Duration(val) * time.Second`, a wrapping 64-bit
multiplication), publish date, title and uploader.  The source writes
the manifest URLs before the playability gate, but the aborting branch
discards `info`, so gathering all writes on the success path is
equivalent. -/
def responseInfo (info : VideoInfo) (response : playerResponse) : VideoInfo :=
  let info := { info with
    DASHManifestURL := response.StreamingData.DashManifestUrl,
    HLSManifestURL := response.StreamingData.HlsManifestUrl }
  let info :=
    if response.VideoDetails.LengthSeconds ≠ "" then
      match goAtoi response.VideoDetails.LengthSeconds with
      | some val => { info with Duration := wrap64 (val * 1000000000) }
      | none => info
    else info
  let info :=
    match goParseDate response.Microformat.Renderer.PublishDate with
    | some d => { info with DatePublished := some d }
    | none => info
  { info with
    Title := response.VideoDetails.Title,
    Uploader := response.VideoDetails.Author }

/-- The format additions of the player-response block
(`video_info.go:226-227`): muxed, then adaptive. -/
def responseFormats (formats : List Format) (response : playerResponse) : List Format :=
  let formats := addFormatsByInfos formats response.StreamingData.Formats false
  addFormatsByInfos formats response.StreamingData.AdaptiveFormats true

/-- `getVideoInfoFromHTML` from the resolved configuration on
(`video_info.go:204-256`): the status gate, the legacy stream maps, and
the player-response block with its own playability gate. -/
def processConfig (info : VideoInfo) (jsonConfig : playerConfig) :
    Option VideoInfo × Option String :=
  let inf := jsonConfig.Args
  if inf.Status = "fail" then
    (none, some ("Error " ++ inf.Errorcode ++ ":" ++ inf.Reason))
  else
    let formats := legacyFormats inf
    if inf.PlayerResponse ≠ "" then
      match unmarshalPlayerResponse inf.PlayerResponse with
      | .error e => (none, some ("Couldn\x27t parse player response: " ++ e))
      | .ok response =>
          if response.PlayabilityStatus.Status ≠ "OK" then
            (none, some ("Unavailable because: " ++ response.PlayabilityStatus.Reason))
          else
            finishInfo (responseInfo info response) (responseFormats formats response) jsonConfig
    else
      finishInfo info formats jsonConfig

/-- The page input of one extraction call: what the two regular
expressions of `video_info.go:132-135` find in the raw page bytes.
`initialData` is the `ytInitialData` capture after the jsonquery layer
(absent marker, or a parse outcome); `playerConfigJSON` is the raw
`ytplayer.config` capture when the marker matched. -/
structure PageInput where
  initialData : Option (Except String metaDoc) := none
  playerConfigJSON : Option String := none

/-- The metadata prologue of `getVideoInfoFromHTML`
(`video_info.go:139-147`): best-effort metadata, errors swallowed, then
the caller-supplied id stored. -/
def metaInfo (id : String) (page : PageInput) : VideoInfo :=
  let info : VideoInfo := {}
  let info :=
    match page.initialData with
    | some doc =>
        match addMetadata info doc with
        | .ok i => i
        | .error _ => info
    | none => info
  { info with ID := id }

/-- `Client.getVideoInfoFromHTML` (`video_info.go:138-257`).  The HTTP
client is a function from URL to body-or-error; the URLs requested are
returned alongside the result, one entry per outbound call the code
makes (only the `get_video_info` fallback at `video_info.go:172`
performs one).  The result pair mirrors Go's `(*VideoInfo, error)`
return. -/
def getVideoInfoFromHTML (id : String) (page : PageInput)
    (http : String → Except String String) :
    (Option VideoInfo × Option String) × List String :=
  let info := metaInfo id page
  match page.playerConfigJSON with
  | some raw =>
      match unmarshalPlayerConfig raw with
      | .error e => ((none, some e), [])
      | .ok cfg => (processConfig info cfg, [])
  | none =>
      let reqURL := videoInfoRequestURL id
      match http reqURL with
      | .error e => ((none, some ("Unable to read video info: " ++ e)), [reqURL])
      | .ok body =>
          match goParseQuery body with
          | (_, some e) => ((none, some ("Unable to parse video info data: " ++ e)), [reqURL])
          | (pairs, none) => (processConfig info (configFromQuery pairs), [reqURL])


/-! ### Helper lemmas about the pipeline's shape -/

theorem wrap64_eq_self (x : Int) (h1 : -(2 ^ 63) ≤ x) (h2 : x < 2 ^ 63) :
    wrap64 x = x := by
  unfold wrap64
  omega

theorem finishInfo_eq (info : VideoInfo) (formats : List Format) (cfg : playerConfig) :
    finishInfo info formats cfg =
      (some { info with
                Formats := formats,
                htmlPlayerFile :=
                  if info.htmlPlayerFile = "" then cfg.Assets.JS else info.htmlPlayerFile },
       none) := by
  unfold finishInfo
  split <;> simp_all

theorem processConfig_fail (info : VideoInfo) (cfg : playerConfig)
    (h : cfg.Args.Status = "fail") :
    processConfig info cfg =
      (none, some ("Error " ++ cfg.Args.Errorcode ++ ":" ++ cfg.Args.Reason)) := by
  unfold processConfig
  simp [h]

theorem processConfig_skip (info : VideoInfo) (cfg : playerConfig)
    (h1 : cfg.Args.Status ≠ "fail") (h2 : cfg.Args.PlayerResponse = "") :
    processConfig info cfg = finishInfo info (legacyFormats cfg.Args) cfg := by
  unfold processConfig
  simp [h1, h2]

theorem processConfig_badJson (info : VideoInfo) (cfg : playerConfig) (e : String)
    (h1 : cfg.Args.Status ≠ "fail") (h2 : cfg.Args.PlayerResponse ≠ "")
    (h3 : unmarshalPlayerResponse cfg.Args.PlayerResponse = .error e) :
    processConfig info cfg = (none, some ("Couldn\x27t parse player response: " ++ e)) := by
  unfold processConfig
  simp [h1, h2, h3]

theorem processConfig_unplayable (info : VideoInfo) (cfg : playerConfig) (r : playerResponse)
    (h1 : cfg.Args.Status ≠ "fail") (h2 : cfg.Args.PlayerResponse ≠ "")
    (h3 : unmarshalPlayerResponse cfg.Args.PlayerResponse = .ok r)
    (h4 : r.PlayabilityStatus.Status ≠ "OK") :
    processConfig info cfg = (none, some ("Unavailable because: " ++ r.PlayabilityStatus.Reason)) := by
  unfold processConfig
  simp [h1, h2, h3, h4]

theorem processConfig_ok (info : VideoInfo) (cfg : playerConfig) (r : playerResponse)
    (h1 : cfg.Args.Status ≠ "fail") (h2 : cfg.Args.PlayerResponse ≠ "")
    (h3 : unmarshalPlayerResponse cfg.Args.PlayerResponse = .ok r)
    (h4 : r.PlayabilityStatus.Status = "OK") :
    processConfig info cfg =
      finishInfo (responseInfo info r) (responseFormats (legacyFormats cfg.Args) r) cfg := by
  unfold processConfig
  simp [h1, h2, h3, h4]

theorem responseInfo_eq (info : VideoInfo) (r : playerResponse) :
    responseInfo info r =
      { info with
          DASHManifestURL := r.StreamingData.DashManifestUrl,
          HLSManifestURL := r.StreamingData.HlsManifestUrl,
          Duration :=
            if r.VideoDetails.LengthSeconds ≠ "" then
              match goAtoi r.VideoDetails.LengthSeconds with
              | some val => wrap64 (val * 1000000000)
              | none => info.Duration
            else info.Duration,
          DatePublished :=
            match goParseDate r.Microformat.Renderer.PublishDate with
            | some d => some d
            | none => info.DatePublished,
          Title := r.VideoDetails.Title,
          Uploader := r.VideoDetails.Author } := by
  by_cases hls : r.VideoDetails.LengthSeconds = "" <;>
    rcases hd : goParseDate r.Microformat.Renderer.PublishDate with _ | d <;>
      rcases ha : goAtoi r.VideoDetails.LengthSeconds with _ | v <;>
        simp [responseInfo, hls, hd, ha]

theorem processConfig_exclusive (info : VideoInfo) (cfg : playerConfig) :
    (∃ vi, processConfig info cfg = (some vi, none)) ∨
      (∃ e, processConfig info cfg = (none, some e)) := by
  by_cases hs : cfg.Args.Status = "fail"
  · exact Or.inr ⟨_, processConfig_fail info cfg hs⟩
  · by_cases hpr : cfg.Args.PlayerResponse = ""
    · rw [processConfig_skip info cfg hs hpr, finishInfo_eq]
      exact Or.inl ⟨_, rfl⟩
    · cases hr : unmarshalPlayerResponse cfg.Args.PlayerResponse with
      | error e => exact Or.inr ⟨_, processConfig_badJson info cfg e hs hpr hr⟩
      | ok r =>
        by_cases hok : r.PlayabilityStatus.Status = "OK"
        · rw [processConfig_ok info cfg r hs hpr hr hok, finishInfo_eq]
          exact Or.inl ⟨_, rfl⟩
        · exact Or.inr ⟨_, processConfig_unplayable info cfg r hs hpr hr hok⟩

theorem processConfig_snd_indep (info info2 : VideoInfo) (cfg : playerConfig) :
    (processConfig info cfg).2 = (processConfig info2 cfg).2 := by
  by_cases hs : cfg.Args.Status = "fail"
  · rw [processConfig_fail info cfg hs, processConfig_fail info2 cfg hs]
  · by_cases hpr : cfg.Args.PlayerResponse = ""
    · rw [processConfig_skip info cfg hs hpr, processConfig_skip info2 cfg hs hpr,
        finishInfo_eq, finishInfo_eq]
    · cases hr : unmarshalPlayerResponse cfg.Args.PlayerResponse with
      | error e =>
        rw [processConfig_badJson info cfg e hs hpr hr, processConfig_badJson info2 cfg e hs hpr hr]
      | ok r =>
        by_cases hok : r.PlayabilityStatus.Status = "OK"
        · rw [processConfig_ok info cfg r hs hpr hr hok, processConfig_ok info2 cfg r hs hpr hr hok,
            finishInfo_eq, finishInfo_eq]
        · rw [processConfig_unplayable info cfg r hs hpr hr hok,
            processConfig_unplayable info2 cfg r hs hpr hr hok]

theorem processConfig_some_ID (info : VideoInfo) (cfg : playerConfig) (vi : VideoInfo)
    (err : Option String) (h : processConfig info cfg = (some vi, err)) :
    vi.ID = info.ID := by
  by_cases hs : cfg.Args.Status = "fail"
  · rw [processConfig_fail info cfg hs] at h
    exact absurd (congrArg Prod.fst h) (by simp)
  · by_cases hpr : cfg.Args.PlayerResponse = ""
    · rw [processConfig_skip info cfg hs hpr, finishInfo_eq] at h
      have := congrArg Prod.fst h
      simp only [Option.some.injEq] at this
      rw [← this]
    · cases hr : unmarshalPlayerResponse cfg.Args.PlayerResponse with
      | error e =>
        rw [processConfig_badJson info cfg e hs hpr hr] at h
        exact absurd (congrArg Prod.fst h) (by simp)
      | ok r =>
        by_cases hok : r.PlayabilityStatus.Status = "OK"
        · rw [processConfig_ok info cfg r hs hpr hr hok, finishInfo_eq] at h
          have := congrArg Prod.fst h
          simp only [Option.some.injEq] at this
          rw [← this]
          show (responseInfo info r).ID = info.ID
          rw [responseInfo_eq]
        · rw [processConfig_unplayable info cfg r hs hpr hr hok] at h
          exact absurd (congrArg Prod.fst h) (by simp)

theorem applyMetadataRow_preserves (i : VideoInfo) (row : metadataRow) :
    (applyMetadataRow i row).ID = i.ID ∧
    (applyMetadataRow i row).Title = i.Title ∧
    (applyMetadataRow i row).Uploader = i.Uploader ∧
    (applyMetadataRow i row).Formats = i.Formats ∧
    (applyMetadataRow i row).Duration = i.Duration ∧
    (applyMetadataRow i row).DatePublished = i.DatePublished ∧
    (applyMetadataRow i row).DASHManifestURL = i.DASHManifestURL ∧
    (applyMetadataRow i row).HLSManifestURL = i.HLSManifestURL ∧
    (applyMetadataRow i row).htmlPlayerFile = i.htmlPlayerFile := by
  unfold applyMetadataRow
  split <;> simp

theorem foldlRows_preserves (rows : List metadataRow) (i : VideoInfo) :
    (rows.foldl applyMetadataRow i).ID = i.ID ∧
    (rows.foldl applyMetadataRow i).Title = i.Title ∧
    (rows.foldl applyMetadataRow i).Uploader = i.Uploader ∧
    (rows.foldl applyMetadataRow i).Formats = i.Formats ∧
    (rows.foldl applyMetadataRow i).Duration = i.Duration ∧
    (rows.foldl applyMetadataRow i).DatePublished = i.DatePublished ∧
    (rows.foldl applyMetadataRow i).DASHManifestURL = i.DASHManifestURL ∧
    (rows.foldl applyMetadataRow i).HLSManifestURL = i.HLSManifestURL ∧
    (rows.foldl applyMetadataRow i).htmlPlayerFile = i.htmlPlayerFile := by
  induction rows generalizing i with
  | nil => simp
  | cons row rest ih =>
    simp only [List.foldl_cons]
    have h1 := applyMetadataRow_preserves i row
    have h2 := ih (applyMetadataRow i row)
    obtain ⟨a1, a2, a3, a4, a5, a6, a7, a8, a9⟩ := h1
    obtain ⟨b1, b2, b3, b4, b5, b6, b7, b8, b9⟩ := h2
    exact ⟨b1.trans a1, b2.trans a2, b3.trans a3, b4.trans a4, b5.trans a5,
      b6.trans a6, b7.trans a7, b8.trans a8, b9.trans a9⟩

theorem addMetadata_preserves (info : VideoInfo) (doc : Except String metaDoc)
    (i : VideoInfo) (h : addMetadata info doc = .ok i) :
    i.ID = info.ID ∧ i.Title = info.Title ∧ i.Uploader = info.Uploader ∧
    i.Formats = info.Formats ∧ i.Duration = info.Duration ∧
    i.DatePublished = info.DatePublished ∧ i.DASHManifestURL = info.DASHManifestURL ∧
    i.HLSManifestURL = info.HLSManifestURL ∧ i.htmlPlayerFile = info.htmlPlayerFile := by
  cases doc with
  | error e => exact absurd h (by simp [addMetadata])
  | ok d =>
    unfold addMetadata at h
    simp only [Except.ok.injEq] at h
    subst h
    cases hd : d.Description with
    | none =>
      simp only [hd] at *
      exact foldlRows_preserves d.Rows info
    | some s =>
      simp only [hd]
      have := foldlRows_preserves d.Rows { info with Description := s }
      simpa using this

theorem metaInfo_fields (id : String) (page : PageInput) :
    (metaInfo id page).ID = id ∧
    (metaInfo id page).Title = "" ∧
    (metaInfo id page).Uploader = "" ∧
    (metaInfo id page).Formats = [] ∧
    (metaInfo id page).Duration = 0 ∧
    (metaInfo id page).DatePublished = none ∧
    (metaInfo id page).DASHManifestURL = "" ∧
    (metaInfo id page).HLSManifestURL = "" ∧
    (metaInfo id page).htmlPlayerFile = "" := by
  unfold metaInfo
  cases hp : page.initialData with
  | none => simp
  | some doc =>
    cases hm : addMetadata {} doc with
    | error e => simp [hm]
    | ok i =>
      obtain ⟨a1, a2, a3, a4, a5, a6, a7, a8, a9⟩ := addMetadata_preserves {} doc i hm
      simp [hm, a2, a3, a4, a5, a6, a7, a8, a9]

theorem getVideoInfo_embedded_badJson (id : String) (page : PageInput)
    (http : String → Except String String) (raw e : String)
    (h1 : page.playerConfigJSON = some raw) (h2 : unmarshalPlayerConfig raw = .error e) :
    getVideoInfoFromHTML id page http = ((none, some e), []) := by
  unfold getVideoInfoFromHTML
  simp [h1, h2]

theorem getVideoInfo_embedded_ok (id : String) (page : PageInput)
    (http : String → Except String String) (raw : String) (cfg : playerConfig)
    (h1 : page.playerConfigJSON = some raw) (h2 : unmarshalPlayerConfig raw = .ok cfg) :
    getVideoInfoFromHTML id page http = (processConfig (metaInfo id page) cfg, []) := by
  unfold getVideoInfoFromHTML
  simp [h1, h2]

theorem getVideoInfo_fallback_httpError (id : String) (page : PageInput)
    (http : String → Except String String) (e : String)
    (h1 : page.playerConfigJSON = none) (h2 : http (videoInfoRequestURL id) = .error e) :
    getVideoInfoFromHTML id page http =
      ((none, some ("Unable to read video info: " ++ e)), [videoInfoRequestURL id]) := by
  unfold getVideoInfoFromHTML
  simp [h1, h2]

theorem getVideoInfo_fallback_badQuery (id : String) (page : PageInput)
    (http : String → Except String String) (body e : String)
    (pairs : List (String × String))
    (h1 : page.playerConfigJSON = none) (h2 : http (videoInfoRequestURL id) = .ok body)
    (h3 : goParseQuery body = (pairs, some e)) :
    getVideoInfoFromHTML id page http =
      ((none, some ("Unable to parse video info data: " ++ e)), [videoInfoRequestURL id]) := by
  unfold getVideoInfoFromHTML
  simp [h1, h2, h3]

theorem getVideoInfo_fallback_ok (id : String) (page : PageInput)
    (http : String → Except String String) (body : String)
    (pairs : List (String × String))
    (h1 : page.playerConfigJSON = none) (h2 : http (videoInfoRequestURL id) = .ok body)
    (h3 : goParseQuery body = (pairs, none)) :
    getVideoInfoFromHTML id page http =
      (processConfig (metaInfo id page) (configFromQuery pairs), [videoInfoRequestURL id]) := by
  unfold getVideoInfoFromHTML
  simp [h1, h2, h3]

/-! ### The claims -/

/-- C1: whenever the resolved configuration's status is `"fail"` —
whether it came from the embedded config or from the fallback endpoint —
extraction aborts with an error carrying the configuration's errorcode
and reason, and no `VideoInfo` (hence no format list) is produced; the
status gate at `video_info.go:204-207` runs before any stream-format
parsing. -/
theorem statusGate_fail_aborts (info : VideoInfo) (cfg : playerConfig) (id : String)
    (page : PageInput) (http : String → Except String String) :
    (cfg.Args.Status = "fail" →
       processConfig info cfg =
         (none, some ("Error " ++ cfg.Args.Errorcode ++ ":" ++ cfg.Args.Reason))) ∧
    (∀ raw, page.playerConfigJSON = some raw → unmarshalPlayerConfig raw = .ok cfg →
       cfg.Args.Status = "fail" →
       getVideoInfoFromHTML id page http =
         ((none, some ("Error " ++ cfg.Args.Errorcode ++ ":" ++ cfg.Args.Reason)), [])) ∧
    (∀ body pairs, page.playerConfigJSON = none →
       http (videoInfoRequestURL id) = .ok body → goParseQuery body = (pairs, none) →
       (configFromQuery pairs).Args.Status = "fail" →
       getVideoInfoFromHTML id page http =
         ((none, some ("Error " ++ (configFromQuery pairs).Args.Errorcode ++ ":" ++
            (configFromQuery pairs).Args.Reason)), [videoInfoRequestURL id])) := by
  refine ⟨fun h => processConfig_fail info cfg h, fun raw h1 h2 h3 => ?_,
    fun body pairs h1 h2 h3 h4 => ?_⟩
  · rw [getVideoInfo_embedded_ok id page http raw cfg h1 h2,
      processConfig_fail (metaInfo id page) cfg h3]
  · rw [getVideoInfo_fallback_ok id page http body pairs h1 h2 h3,
      processConfig_fail (metaInfo id page) (configFromQuery pairs) h4]

/-- Witness for C1: the embedded configuration of the spec's example
(status `"fail"`, errorcode `"100"`, reason `"Video not found"`) makes
the whole pipeline return exactly that error and no `VideoInfo`. -/
theorem statusGate_fail_aborts_witness :
    getVideoInfoFromHTML "dQw4w9WgXcQ"
        { playerConfigJSON :=
            some "\x7b\"args\":\x7b\"status\":\"fail\",\"errorcode\":\"100\",\"reason\":\"Video not found\"\x7d\x7d" }
        (fun _ => .error "unused") =
      ((none, some "Error 100:Video not found"), []) :=
  ((statusGate_fail_aborts {}
      { Args := { Errorcode := "100", Reason := "Video not found", Status := "fail" } }
      "dQw4w9WgXcQ"
      { playerConfigJSON :=
          some "\x7b\"args\":\x7b\"status\":\"fail\",\"errorcode\":\"100\",\"reason\":\"Video not found\"\x7d\x7d" }
      (fun _ => .error "unused")).2.1
    "\x7b\"args\":\x7b\"status\":\"fail\",\"errorcode\":\"100\",\"reason\":\"Video not found\"\x7d\x7d"
    rfl (by rfl) rfl).trans (by decide)

/-- C2: every stream-map segment the query-string decode path accepts
yields a StreamFormat whose itag is the integer value of the segment's
`itag` field and whose adaptive flag is the caller-supplied batch flag;
and a legacy embedded config whose muxed stream map holds one valid
comma-terminated entry with itag 18 and no player-response yields
exactly one StreamFormat with itag 18, adaptive false (and empty title
and zero duration). -/
theorem queryStringFormats (fs : List Format) (s : String) (adaptive : Bool) :
    (∀ fs2, addByQueryString fs s adaptive = .ok fs2 →
       ∃ f itagStr n, fs2 = fs ++ [f] ∧ f.Adaptive = adaptive ∧
         firstValue (goParseQuery s).1 "itag" = some itagStr ∧
         goAtoi itagStr = some n ∧ (f.Itag : Int) = n) ∧
    (∃ vi,
       (getVideoInfoFromHTML "v18"
           { playerConfigJSON :=
               some "\x7b\"args\":\x7b\"url_encoded_fmt_stream_map\":\"itag=18&quality=medium,\"\x7d\x7d" }
           (fun _ => .error "unused")).1 = (some vi, none) ∧
       vi.Formats = [{ Itag := 18, Adaptive := false, URL := "" }] ∧
       vi.Title = "" ∧ vi.Duration = 0) := by
  constructor
  · intro fs2 h
    unfold addByQueryString at h
    split at h
    · exact absurd h (by simp)
    next pairs heq =>
      split at h
      · exact absurd h (by simp)
      next itagStr hfv =>
        split at h
        · exact absurd h (by simp)
        next n hn =>
          split at h
          · exact absurd h (by simp)
          next hneg =>
            refine ⟨{ Itag := n.toNat, Adaptive := adaptive,
                      URL := (firstValue pairs "url").getD "" },
                itagStr, n, ?_, rfl, ?_, hn, ?_⟩
            · injection h with h2
              exact h2.symm
            · rw [heq]
              exact hfv
            · simpa using Int.toNat_of_nonneg (by omega)
  · exact ⟨{ ID := "v18", Formats := [{ Itag := 18, Adaptive := false, URL := "" }] },
      by decide, by decide, by decide, by decide⟩

/-- Witness for C2: the segment `itag=22&url=u` decodes, under the
adaptive batch flag, to one appended StreamFormat with itag 22 and
adaptive true. -/
theorem queryStringFormats_witness :
    ∃ f itagStr n,
      [({ Itag := 22, Adaptive := true, URL := "u" } : Format)] = [] ++ [f] ∧
      f.Adaptive = true ∧
      firstValue (goParseQuery "itag=22&url=u").1 "itag" = some itagStr ∧
      goAtoi itagStr = some n ∧ (f.Itag : Int) = n :=
  (queryStringFormats [] "itag=22&url=u" true).1
    [{ Itag := 22, Adaptive := true, URL := "u" }] (by rfl)

/-- C3: when the embedded-config marker is present but its JSON does not
decode, extraction aborts with that error; when the marker is absent the
pipeline calls the `get_video_info` fallback exactly once, with the
`video_id` and `eurl` parameters, and processes its URL-query-encoded
response in place of the embedded config (a request failure is fatal);
the response populates only the recognized configuration keys —
configurations built from responses that agree on the recognized keys
are identical, so unrecognized keys are ignored. -/
theorem config_resolution (id : String) (page : PageInput)
    (http : String → Except String String) :
    (∀ raw e, page.playerConfigJSON = some raw → unmarshalPlayerConfig raw = .error e →
       getVideoInfoFromHTML id page http = ((none, some e), [])) ∧
    (page.playerConfigJSON = none →
       (getVideoInfoFromHTML id page http).2 = [videoInfoRequestURL id]) ∧
    (page.playerConfigJSON ≠ none →
       (getVideoInfoFromHTML id page http).2 = []) ∧
    (∀ e, page.playerConfigJSON = none → http (videoInfoRequestURL id) = .error e →
       getVideoInfoFromHTML id page http =
         ((none, some ("Unable to read video info: " ++ e)), [videoInfoRequestURL id])) ∧
    (∀ body pairs, page.playerConfigJSON = none → http (videoInfoRequestURL id) = .ok body →
       goParseQuery body = (pairs, none) →
       getVideoInfoFromHTML id page http =
         (processConfig (metaInfo id page) (configFromQuery pairs), [videoInfoRequestURL id])) ∧
    (∀ pairs pairs2,
       (∀ k, k ∈ recognizedQueryKeys → firstValue pairs k = firstValue pairs2 k) →
       configFromQuery pairs = configFromQuery pairs2) := by
  refine ⟨fun raw e h1 h2 => getVideoInfo_embedded_badJson id page http raw e h1 h2,
    fun h1 => ?_, fun h1 => ?_, fun e h1 h2 => getVideoInfo_fallback_httpError id page http e h1 h2,
    fun body pairs h1 h2 h3 => getVideoInfo_fallback_ok id page http body pairs h1 h2 h3,
    fun pairs pairs2 h => ?_⟩
  · cases hh : http (videoInfoRequestURL id) with
    | error e => rw [getVideoInfo_fallback_httpError id page http e h1 hh]
    | ok body =>
      rcases hq : goParseQuery body with ⟨qpairs, err⟩
      cases err with
      | some e => rw [getVideoInfo_fallback_badQuery id page http body e qpairs h1 hh hq]
      | none => rw [getVideoInfo_fallback_ok id page http body qpairs h1 hh hq]
  · rcases hp : page.playerConfigJSON with _ | raw
    · exact absurd hp h1
    · cases hc : unmarshalPlayerConfig raw with
      | error e => rw [getVideoInfo_embedded_badJson id page http raw e hp hc]
      | ok cfg => rw [getVideoInfo_embedded_ok id page http raw cfg hp hc]
  · have e1 := h "errorcode" (by simp [recognizedQueryKeys])
    have e2 := h "reason" (by simp [recognizedQueryKeys])
    have e3 := h "status" (by simp [recognizedQueryKeys])
    have e4 := h "player_response" (by simp [recognizedQueryKeys])
    have e5 := h "url_encoded_fmt_stream_map" (by simp [recognizedQueryKeys])
    have e6 := h "adaptive_fmts" (by simp [recognizedQueryKeys])
    have e7 := h "dashmpd" (by simp [recognizedQueryKeys])
    unfold configFromQuery
    rw [e1, e2, e3, e4, e5, e6, e7]

/-- Witness for C3: a page whose marker captured non-JSON aborts with
the decode error and performs no outbound call, while a page without
the marker performs exactly the one `get_video_info` request with the
`eurl` and `video_id` parameters. -/
theorem config_resolution_witness :
    getVideoInfoFromHTML "w" { playerConfigJSON := some "nope" } (fun _ => .error "x") =
      ((none, some "invalid JSON value"), []) ∧
    (getVideoInfoFromHTML "w" {} (fun _ => .ok "status=ok&zzz=1")).2 =
      [videoInfoRequestURL "w"] :=
  ⟨(config_resolution "w" { playerConfigJSON := some "nope" } (fun _ => .error "x")).1
      "nope" "invalid JSON value" rfl (by rfl),
   (config_resolution "w" {} (fun _ => .ok "status=ok&zzz=1")).2.1 rfl⟩

/-- C4: one extraction call returns either a `VideoInfo` with a nil
error or no `VideoInfo` with an error — never both and never neither,
on every path of `getVideoInfoFromHTML`. -/
theorem extraction_result_exclusive (id : String) (page : PageInput)
    (http : String → Except String String) :
    (∃ vi, (getVideoInfoFromHTML id page http).1 = (some vi, none)) ∨
    (∃ e, (getVideoInfoFromHTML id page http).1 = (none, some e)) := by
  cases hp : page.playerConfigJSON with
  | some raw =>
    cases hc : unmarshalPlayerConfig raw with
    | error e =>
      rw [getVideoInfo_embedded_badJson id page http raw e hp hc]
      exact Or.inr ⟨e, rfl⟩
    | ok cfg =>
      rw [getVideoInfo_embedded_ok id page http raw cfg hp hc]
      exact processConfig_exclusive (metaInfo id page) cfg
  | none =>
    cases hh : http (videoInfoRequestURL id) with
    | error e =>
      rw [getVideoInfo_fallback_httpError id page http e hp hh]
      exact Or.inr ⟨_, rfl⟩
    | ok body =>
      rcases hq : goParseQuery body with ⟨pairs, err⟩
      cases err with
      | some e =>
        rw [getVideoInfo_fallback_badQuery id page http body e pairs hp hh hq]
        exact Or.inr ⟨_, rfl⟩
      | none =>
        rw [getVideoInfo_fallback_ok id page http body pairs hp hh hq]
        exact processConfig_exclusive (metaInfo id page) (configFromQuery pairs)

/-- C5: past the status gate, a non-empty player-response string that
does not decode is fatal with the decode error; an absent (empty)
player-response string skips the whole block and extraction still
succeeds, populated only from the legacy stream maps (title, duration,
date and uploader untouched); a decoded response whose playability
status is not `"OK"` is fatal with the embedded reason. -/
theorem playerResponse_gate (info : VideoInfo) (cfg : playerConfig)
    (hs : cfg.Args.Status ≠ "fail") :
    (∀ e, cfg.Args.PlayerResponse ≠ "" →
       unmarshalPlayerResponse cfg.Args.PlayerResponse = .error e →
       processConfig info cfg = (none, some ("Couldn\x27t parse player response: " ++ e))) ∧
    (cfg.Args.PlayerResponse = "" →
       ∃ vi, processConfig info cfg = (some vi, none) ∧
         vi.Formats = legacyFormats cfg.Args ∧ vi.Title = info.Title ∧
         vi.Duration = info.Duration ∧ vi.DatePublished = info.DatePublished ∧
         vi.Uploader = info.Uploader) ∧
    (∀ r, cfg.Args.PlayerResponse ≠ "" →
       unmarshalPlayerResponse cfg.Args.PlayerResponse = .ok r →
       r.PlayabilityStatus.Status ≠ "OK" →
       processConfig info cfg = (none, some ("Unavailable because: " ++ r.PlayabilityStatus.Reason))) := by
  refine ⟨fun e h2 h3 => processConfig_badJson info cfg e hs h2 h3, fun h2 => ?_,
    fun r h2 h3 h4 => processConfig_unplayable info cfg r hs h2 h3 h4⟩
  rw [processConfig_skip info cfg hs h2, finishInfo_eq]
  exact ⟨_, rfl, rfl, rfl, rfl, rfl, rfl⟩

/-- Witness for C5: a configuration with an empty player-response
string and status `"ok"` succeeds with only the (empty) legacy formats,
and one whose player response decodes with a non-OK playability status
aborts with the embedded reason. -/
theorem playerResponse_gate_witness :
    (∃ vi, processConfig {} { Args := { Status := "ok" } } = (some vi, none) ∧
       vi.Formats = legacyFormats ({ Status := "ok" } : playerArgs) ∧ vi.Title = "" ∧
       vi.Duration = 0 ∧ vi.DatePublished = none ∧ vi.Uploader = "") ∧
    processConfig {}
        { Args := { PlayerResponse :=
            "\x7b\"playabilityStatus\":\x7b\"status\":\"LOGIN_REQUIRED\",\"reason\":\"Private video\"\x7d\x7d" } } =
      (none, some "Unavailable because: Private video") :=
  ⟨(playerResponse_gate {} { Args := { Status := "ok" } } (by decide)).2.1 rfl,
   ((playerResponse_gate {}
        { Args := { PlayerResponse :=
            "\x7b\"playabilityStatus\":\x7b\"status\":\"LOGIN_REQUIRED\",\"reason\":\"Private video\"\x7d\x7d" } }
        (by decide)).2.2
      { PlayabilityStatus := { Status := "LOGIN_REQUIRED", Reason := "Private video" } }
      (by decide) (by rfl) (by decide)).trans (by decide)⟩

/-- C6 counterexample: the claim "a numeric lengthSeconds string n
yields a duration of n seconds" fails at n = 10000000000: the code
computes `time.Duration(10000000000) * time.Second`, which wraps the
64-bit nanosecond count to -8446744073709551616 ns instead of
10000000000 s. -/
theorem duration_lengthSeconds_counterexample :
    goAtoi "10000000000" = some 10000000000 ∧
    (∃ vi,
       processConfig {}
           { Args := { PlayerResponse :=
               "\x7b\"playabilityStatus\":\x7b\"status\":\"OK\"\x7d,\"videoDetails\":\x7b\"lengthSeconds\":\"10000000000\"\x7d\x7d" } } =
         (some vi, none) ∧
       vi.Duration = -8446744073709551616 ∧
       ¬vi.Duration = 10000000000 * 1000000000) :=
  ⟨by decide, ⟨{ Duration := -8446744073709551616 }, by decide, by decide, by decide⟩⟩

/-- C6 (amended): on the successful player-response path, a
lengthSeconds string parsed by `strconv.Atoi` to n with
|n| ≤ 9223372036 (so that n seconds fits the signed 64-bit nanosecond
count) yields a duration of exactly n seconds — in particular `"635"`
yields 635 s — and a non-numeric lengthSeconds leaves the duration
unchanged (unset) while extraction still succeeds. -/
theorem duration_from_lengthSeconds (info : VideoInfo) (cfg : playerConfig) (r : playerResponse)
    (hs : cfg.Args.Status ≠ "fail") (hpr : cfg.Args.PlayerResponse ≠ "")
    (hok : unmarshalPlayerResponse cfg.Args.PlayerResponse = .ok r)
    (hps : r.PlayabilityStatus.Status = "OK") :
    (∀ n, goAtoi r.VideoDetails.LengthSeconds = some n →
       -9223372036 ≤ n → n ≤ 9223372036 →
       ∃ vi, processConfig info cfg = (some vi, none) ∧ vi.Duration = n * 1000000000) ∧
    (goAtoi r.VideoDetails.LengthSeconds = none →
       ∃ vi, processConfig info cfg = (some vi, none) ∧ vi.Duration = info.Duration) := by
  constructor
  · intro n hn hlo hhi
    have hne : r.VideoDetails.LengthSeconds ≠ "" := by
      intro h0
      rw [h0, show goAtoi "" = none from rfl] at hn
      exact Option.noConfusion hn
    rw [processConfig_ok info cfg r hs hpr hok hps, finishInfo_eq]
    refine ⟨_, rfl, ?_⟩
    show (responseInfo info r).Duration = n * 1000000000
    rw [responseInfo_eq]
    simp only [hne, hn, ne_eq, not_false_iff, if_true]
    exact wrap64_eq_self _ (by omega) (by omega)
  · intro hn
    rw [processConfig_ok info cfg r hs hpr hok hps, finishInfo_eq]
    refine ⟨_, rfl, ?_⟩
    show (responseInfo info r).Duration = info.Duration
    rw [responseInfo_eq]
    by_cases hne : r.VideoDetails.LengthSeconds = ""
    · simp [hne]
    · simp [hne, hn]

/-- Witness for C6: the spec's example — lengthSeconds `"635"` gives a
duration of 635 seconds (635000000000 ns); a non-numeric lengthSeconds
(`"n/a"`) leaves the duration at zero while extraction succeeds. -/
theorem duration_from_lengthSeconds_witness :
    (∃ vi,
       processConfig {}
           { Args := { PlayerResponse :=
               "\x7b\"playabilityStatus\":\x7b\"status\":\"OK\"\x7d,\"videoDetails\":\x7b\"lengthSeconds\":\"635\"\x7d\x7d" } } =
         (some vi, none) ∧ vi.Duration = 635 * 1000000000) ∧
    (∃ vi,
       processConfig {}
           { Args := { PlayerResponse :=
               "\x7b\"playabilityStatus\":\x7b\"status\":\"OK\"\x7d,\"videoDetails\":\x7b\"lengthSeconds\":\"n/a\"\x7d\x7d" } } =
         (some vi, none) ∧ vi.Duration = ({} : VideoInfo).Duration) :=
  ⟨(duration_from_lengthSeconds {}
      { Args := { PlayerResponse :=
          "\x7b\"playabilityStatus\":\x7b\"status\":\"OK\"\x7d,\"videoDetails\":\x7b\"lengthSeconds\":\"635\"\x7d\x7d" } }
      { PlayabilityStatus := { Status := "OK" },
        VideoDetails := { LengthSeconds := "635" } }
      (by decide) (by decide) (by rfl) rfl).1 635 (by decide) (by decide) (by decide),
   (duration_from_lengthSeconds {}
      { Args := { PlayerResponse :=
          "\x7b\"playabilityStatus\":\x7b\"status\":\"OK\"\x7d,\"videoDetails\":\x7b\"lengthSeconds\":\"n/a\"\x7d\x7d" } }
      { PlayabilityStatus := { Status := "OK" },
        VideoDetails := { LengthSeconds := "n/a" } }
      (by decide) (by decide) (by rfl) rfl).2 (by decide)⟩

/-- C7 counterexample: the invariant "Duration is non-negative for all
possible lengthSeconds strings" fails: lengthSeconds `"-5"` parses
(`strconv.Atoi` accepts a sign) and the successfully returned VideoInfo
carries Duration = -5000000000 ns < 0. -/
theorem duration_nonneg_counterexample :
    ∃ vi,
      processConfig {}
          { Args := { PlayerResponse :=
              "\x7b\"playabilityStatus\":\x7b\"status\":\"OK\"\x7d,\"videoDetails\":\x7b\"lengthSeconds\":\"-5\"\x7d\x7d" } } =
        (some vi, none) ∧
      vi.Duration = -5000000000 ∧ vi.Duration < 0 :=
  ⟨{ Duration := -5000000000 }, by decide, by decide, by decide⟩

/-- C7 (amended): the pipeline starts every extraction with a zero
duration, and a successfully returned VideoInfo has a non-negative
duration provided the incoming duration was non-negative and every
integer the player response's lengthSeconds parses to lies in
[0, 9223372036] (negative or nanosecond-overflowing values are the only
way the code produces a negative duration). -/
theorem duration_nonneg_amended :
    (∀ id page, (metaInfo id page).Duration = 0) ∧
    (∀ (info : VideoInfo) (cfg : playerConfig) (vi : VideoInfo) (err : Option String),
       0 ≤ info.Duration →
       (∀ r n, unmarshalPlayerResponse cfg.Args.PlayerResponse = .ok r →
          goAtoi r.VideoDetails.LengthSeconds = some n → 0 ≤ n ∧ n ≤ 9223372036) →
       processConfig info cfg = (some vi, err) → 0 ≤ vi.Duration) := by
  constructor
  · intro id page
    exact (metaInfo_fields id page).2.2.2.2.1
  · intro info cfg vi err h0 hbound h
    by_cases hs : cfg.Args.Status = "fail"
    · rw [processConfig_fail info cfg hs] at h
      exact absurd (congrArg Prod.fst h) (by simp)
    · by_cases hpr : cfg.Args.PlayerResponse = ""
      · rw [processConfig_skip info cfg hs hpr, finishInfo_eq] at h
        have hv := congrArg Prod.fst h
        simp only [Option.some.injEq] at hv
        rw [← hv]
        exact h0
      · cases hr : unmarshalPlayerResponse cfg.Args.PlayerResponse with
        | error e =>
          rw [processConfig_badJson info cfg e hs hpr hr] at h
          exact absurd (congrArg Prod.fst h) (by simp)
        | ok r =>
          by_cases hps : r.PlayabilityStatus.Status = "OK"
          · rw [processConfig_ok info cfg r hs hpr hr hps, finishInfo_eq] at h
            have hv := congrArg Prod.fst h
            simp only [Option.some.injEq] at hv
            rw [← hv]
            show 0 ≤ (responseInfo info r).Duration
            rw [responseInfo_eq]
            by_cases hne : r.VideoDetails.LengthSeconds = ""
            · simpa [hne] using h0
            · cases ha : goAtoi r.VideoDetails.LengthSeconds with
              | none => simpa [hne, ha] using h0
              | some n =>
                obtain ⟨hn0, hn1⟩ := hbound r n hr ha
                simp only [hne, ha, ne_eq, not_false_iff, if_true]
                rw [wrap64_eq_self _ (by omega) (by omega)]
                omega
          · rw [processConfig_unplayable info cfg r hs hpr hr hps] at h
            exact absurd (congrArg Prod.fst h) (by simp)

/-- Witness for C7: the all-empty configuration takes the skip path and
returns the zero (hence non-negative) duration, and the pipeline's
initial record has duration zero. -/
theorem duration_nonneg_amended_witness :
    (metaInfo "v" {}).Duration = 0 ∧ (0 : Int) ≤ (({} : VideoInfo)).Duration :=
  ⟨(duration_nonneg_amended).1 "v" {},
   (duration_nonneg_amended).2 {} {} {} none (by decide)
     (fun r n h _hn =>
       absurd h (by simp [show unmarshalPlayerResponse "" = Except.error "unexpected end of JSON" from rfl]))
     (by decide)⟩

/-- C8: the page-metadata step never makes extraction fail — the error
component and the outbound-call log of the pipeline do not depend on the
metadata input at all; a jsonquery parse failure leaves all metadata
fields unset (the pre-config record is exactly the fresh one carrying
only the id); and a metadata row with an unrecognized label changes
nothing. -/
theorem metadata_best_effort (id : String) (page : PageInput)
    (http : String → Except String String) :
    ((getVideoInfoFromHTML id page http).1.2 =
       (getVideoInfoFromHTML id { page with initialData := none } http).1.2) ∧
    ((getVideoInfoFromHTML id page http).2 =
       (getVideoInfoFromHTML id { page with initialData := none } http).2) ∧
    (∀ e p, metaInfo id { initialData := some (.error e), playerConfigJSON := p } =
       { ID := id }) ∧
    (∀ i row, row.Key ≠ "Artist" → row.Key ≠ "Song" → row.Key ≠ "Album" →
       row.Key ≠ "Writers" → applyMetadataRow i row = i) := by
  have hmain :
      ((getVideoInfoFromHTML id page http).1.2 =
        (getVideoInfoFromHTML id { page with initialData := none } http).1.2) ∧
      ((getVideoInfoFromHTML id page http).2 =
        (getVideoInfoFromHTML id { page with initialData := none } http).2) := by
    cases hp : page.playerConfigJSON with
    | some raw =>
      cases hc : unmarshalPlayerConfig raw with
      | error e =>
        rw [getVideoInfo_embedded_badJson id page http raw e hp hc,
          getVideoInfo_embedded_badJson id
            { initialData := none, playerConfigJSON := some raw } http raw e rfl hc]
        exact ⟨rfl, rfl⟩
      | ok cfg =>
        rw [getVideoInfo_embedded_ok id page http raw cfg hp hc,
          getVideoInfo_embedded_ok id
            { initialData := none, playerConfigJSON := some raw } http raw cfg rfl hc]
        exact ⟨processConfig_snd_indep _ _ cfg, rfl⟩
    | none =>
      cases hh : http (videoInfoRequestURL id) with
      | error e =>
        rw [getVideoInfo_fallback_httpError id page http e hp hh,
          getVideoInfo_fallback_httpError id
            { initialData := none, playerConfigJSON := none } http e rfl hh]
        exact ⟨rfl, rfl⟩
      | ok body =>
        rcases hq : goParseQuery body with ⟨pairs, err⟩
        cases err with
        | some e =>
          rw [getVideoInfo_fallback_badQuery id page http body e pairs hp hh hq,
            getVideoInfo_fallback_badQuery id
              { initialData := none, playerConfigJSON := none } http body e pairs rfl hh hq]
          exact ⟨rfl, rfl⟩
        | none =>
          rw [getVideoInfo_fallback_ok id page http body pairs hp hh hq,
            getVideoInfo_fallback_ok id
              { initialData := none, playerConfigJSON := none } http body pairs rfl hh hq]
          exact ⟨processConfig_snd_indep _ _ (configFromQuery pairs), rfl⟩
  refine ⟨hmain.1, hmain.2, fun e p => rfl, fun i row h1 h2 h3 h4 => ?_⟩
  unfold applyMetadataRow
  split <;> simp_all

/-- Witness for C8: on a marker-absent page with a failing transport,
a page carrying a malformed metadata document produces the same error
and the same call log as the page without any metadata marker; the
fresh record of a failed metadata parse carries only the id; and an
unrecognized row label (`"Track"`) is ignored. -/
theorem metadata_best_effort_witness :
    ((getVideoInfoFromHTML "v" { initialData := some (.error "bad json") } (fun _ => .error "down")).1.2 =
       (getVideoInfoFromHTML "v" { initialData := none } (fun _ => .error "down")).1.2) ∧
    (metaInfo "v" { initialData := some (.error "bad json"), playerConfigJSON := none } =
       { ID := "v" }) ∧
    applyMetadataRow {} { Key := "Track", Value := "t" } = {} :=
  ⟨(metadata_best_effort "v" { initialData := some (.error "bad json") } (fun _ => .error "down")).1,
   (metadata_best_effort "v" { initialData := some (.error "bad json") } (fun _ => .error "down")).2.2.1
     "bad json" none,
   (metadata_best_effort "v" {} (fun _ => .error "down")).2.2.2 {} { Key := "Track", Value := "t" }
     (by decide) (by decide) (by decide) (by decide)⟩

/-- C9: any configuration that passes the status gate and whose
player-response step passes (absent, or decoded with playability
`"OK"`) yields success; in particular with empty stream maps and no
player response the returned VideoInfo has an empty format list and a
nil error — an empty format list is not an error. -/
theorem empty_formats_success (info : VideoInfo) (cfg : playerConfig)
    (hs : cfg.Args.Status ≠ "fail")
    (hgate : cfg.Args.PlayerResponse = "" ∨
      ∃ r, unmarshalPlayerResponse cfg.Args.PlayerResponse = .ok r ∧
        r.PlayabilityStatus.Status = "OK") :
    (∃ vi, processConfig info cfg = (some vi, none)) ∧
    (cfg.Args.URLEncodedFmtStreamMap = "" → cfg.Args.AdaptiveFmts = "" →
       cfg.Args.PlayerResponse = "" →
       ∃ vi, processConfig info cfg = (some vi, none) ∧ vi.Formats = []) := by
  constructor
  · by_cases hpr : cfg.Args.PlayerResponse = ""
    · rw [processConfig_skip info cfg hs hpr, finishInfo_eq]
      exact ⟨_, rfl⟩
    · rcases hgate with h0 | ⟨r, hok, hOK⟩
      · exact absurd h0 hpr
      · rw [processConfig_ok info cfg r hs hpr hok hOK, finishInfo_eq]
        exact ⟨_, rfl⟩
  · intro h1 h2 h3
    rw [processConfig_skip info cfg hs h3, finishInfo_eq]
    refine ⟨_, rfl, ?_⟩
    show legacyFormats cfg.Args = []
    unfold legacyFormats
    rw [h1, h2]
    decide

/-- Witness for C9: the all-empty configuration (status not `"fail"`,
no stream maps, no player response) returns success with an empty
format list. -/
theorem empty_formats_success_witness :
    ∃ vi, processConfig {} {} = (some vi, none) ∧ vi.Formats = [] :=
  (empty_formats_success {} {} (by decide) (Or.inl rfl)).2 rfl rfl rfl

/-- C10: every successfully returned VideoInfo carries exactly the
caller-supplied video id — the id is written once at
`video_info.go:147` and no later step of the pipeline overwrites it,
on either config-resolution path. -/
theorem extracted_ID_eq (id : String) (page : PageInput)
    (http : String → Except String String) (vi : VideoInfo) (err : Option String)
    (log : List String)
    (h : getVideoInfoFromHTML id page http = ((some vi, err), log)) :
    vi.ID = id := by
  have hid : ∀ cfg, processConfig (metaInfo id page) cfg = (some vi, err) → vi.ID = id := by
    intro cfg hc
    rw [processConfig_some_ID (metaInfo id page) cfg vi err hc]
    exact (metaInfo_fields id page).1
  cases hp : page.playerConfigJSON with
  | some raw =>
    cases hc : unmarshalPlayerConfig raw with
    | error e =>
      rw [getVideoInfo_embedded_badJson id page http raw e hp hc] at h
      simp at h
    | ok cfg =>
      rw [getVideoInfo_embedded_ok id page http raw cfg hp hc] at h
      simp only [Prod.mk.injEq] at h
      exact hid cfg h.1
  | none =>
    cases hh : http (videoInfoRequestURL id) with
    | error e =>
      rw [getVideoInfo_fallback_httpError id page http e hp hh] at h
      simp at h
    | ok body =>
      rcases hq : goParseQuery body with ⟨pairs, perr⟩
      cases perr with
      | some e =>
        rw [getVideoInfo_fallback_badQuery id page http body e pairs hp hh hq] at h
        simp at h
      | none =>
        rw [getVideoInfo_fallback_ok id page http body pairs hp hh hq] at h
        simp only [Prod.mk.injEq] at h
        exact hid (configFromQuery pairs) h.1

/-- Witness for C10: a page whose embedded config is the empty JSON
object succeeds and returns the caller-supplied id `"vid9"`. -/
theorem extracted_ID_eq_witness :
    ({ ID := "vid9" } : VideoInfo).ID = "vid9" :=
  extracted_ID_eq "vid9" { playerConfigJSON := some "\x7b\x7d" } (fun _ => .error "unused")
    { ID := "vid9" } none [] (by decide)
